import Mathlib

/-!
Shallow embedding of the `cache` crate (src/lib.rs): two lazily evaluated
cache types, `Cache<T>` (single-threaded, `RefCell<Option<T>>`) and
`AtomicCache<T>` (thread-safe, `RwLock<Option<T>>`), each holding a boxed
zero-argument computation and a single slot.

Modelling choices:
- The boxed closure `Box<Fn() -> T>` is a Lean function `Unit → T`
  (named `calcFn`, since `calc` is a Lean keyword).
- The slot `Option<T>` is `Option T`; `RefCell` / `RwLock` state is passed
  explicitly: `get` maps a cache to (updated cache, returned view,
  number of invocations of the computation performed by this call).
- The view types `CacheRef` / `AtomicCacheRef` wrap the `Option T` seen
  through the borrow/guard; `deref` models `.as_ref().unwrap()`, returning
  `none` exactly when the unwrap would panic.
- Lock poisoning, lock-event ordering, `RefCell` borrow counting and the
  two-thread interleaving of `AtomicCache::get` are modelled by separate,
  more detailed functions further below, each translated from the same
  source lines.
-/

namespace Spec2Proof

/-- `Cache<T>`: `calc: Box<Fn() -> T>`, `data: RefCell<Option<T>>`. -/
structure Cache (T : Type) where
  calcFn : Unit → T
  data : Option T

/-- `CacheRef<'a, T>`: thin wrapper around `Ref<'a, Option<T>>`; `val` is the
`Option<T>` visible through the borrow. -/
structure CacheRef (T : Type) where
  val : Option T
deriving DecidableEq

/-- `Deref for CacheRef`: `self.0.as_ref().unwrap()`. Returns `none` exactly
when the `unwrap` would panic on an empty slot. -/
def CacheRef.deref {T : Type} (r : CacheRef T) : Option T :=
  r.val

/-- `Cache::new(calc)`: wraps the computation, slot starts `None`. The body
contains no call of `calc`. -/
def Cache.new {T : Type} (calcFn : Unit → T) : Cache T :=
  ⟨calcFn, none⟩

/-- `Cache::get`: if `self.data.borrow().is_none()` then compute and
`self.data.replace(Some(data))`; finally return `CacheRef::new(self.data.borrow())`.
Result: (cache after the call, returned view, number of `calc` invocations). -/
def Cache.get {T : Type} (c : Cache T) : Cache T × CacheRef T × Nat :=
  if c.data.isNone then
    let data := c.calcFn ()
    let c' : Cache T := ⟨c.calcFn, some data⟩
    (c', ⟨c'.data⟩, 1)
  else
    (c, ⟨c.data⟩, 0)

/-- `n` sequential calls of `Cache::get`: final cache, the list of returned
views in call order, and the total number of `calc` invocations. -/
def Cache.iterGet {T : Type} (c : Cache T) : Nat → Cache T × List (CacheRef T) × Nat
  | 0 => (c, [], 0)
  | n + 1 =>
    let p := c.get
    let q := p.1.iterGet n
    (q.1, p.2.1 :: q.2.1, p.2.2 + q.2.2)

/-- The value a `Cache` serves: the stored one if populated, otherwise the
result of its computation. -/
def Cache.value {T : Type} (c : Cache T) : T :=
  c.data.getD (c.calcFn ())

/-- `AtomicCache<T>`: `calc: Box<Fn() -> T + Send + Sync>`,
`data: RwLock<Option<T>>`. Sequential (single-thread) semantics. -/
structure AtomicCache (T : Type) where
  calcFn : Unit → T
  data : Option T

/-- `AtomicCacheRef<'a, T>`: thin wrapper around `RwLockReadGuard<'a, Option<T>>`. -/
structure AtomicCacheRef (T : Type) where
  val : Option T
deriving DecidableEq

/-- `Deref for AtomicCacheRef`: `self.0.as_ref().unwrap()`. -/
def AtomicCacheRef.deref {T : Type} (r : AtomicCacheRef T) : Option T :=
  r.val

/-- `AtomicCache::new(calc)`: wraps the computation, slot starts `None`. The
body contains no call of `calc`. -/
def AtomicCache.new {T : Type} (calcFn : Unit → T) : AtomicCache T :=
  ⟨calcFn, none⟩

/-- `AtomicCache::get`, sequential semantics: if
`self.data.read().unwrap().is_none()` then `let data = calc();`
`*self.data.write().unwrap() = Some(data)`; finally return
`AtomicCacheRef::new(self.data.read().unwrap())`. -/
def AtomicCache.get {T : Type} (c : AtomicCache T) : AtomicCache T × AtomicCacheRef T × Nat :=
  if c.data.isNone then
    let data := c.calcFn ()
    let c' : AtomicCache T := ⟨c.calcFn, some data⟩
    (c', ⟨c'.data⟩, 1)
  else
    (c, ⟨c.data⟩, 0)

/-- `n` sequential calls of `AtomicCache::get`. -/
def AtomicCache.iterGet {T : Type} (c : AtomicCache T) :
    Nat → AtomicCache T × List (AtomicCacheRef T) × Nat
  | 0 => (c, [], 0)
  | n + 1 =>
    let p := c.get
    let q := p.1.iterGet n
    (q.1, p.2.1 :: q.2.1, p.2.2 + q.2.2)

/-- The value an `AtomicCache` serves. -/
def AtomicCache.value {T : Type} (c : AtomicCache T) : T :=
  c.data.getD (c.calcFn ())

/- Basic lemmas about the two `get` operations. -/

theorem Cache.get_of_populated {T : Type} (c : Cache T) (v : T) (h : c.data = some v) :
    c.get = (c, ⟨some v⟩, 0) := by
  simp [Cache.get, h]

theorem Cache.get_of_empty {T : Type} (c : Cache T) (h : c.data = none) :
    c.get = (⟨c.calcFn, some (c.calcFn ())⟩, ⟨some (c.calcFn ())⟩, 1) := by
  simp [Cache.get, h]

theorem AtomicCache.get_of_populated_atomic {T : Type} (c : AtomicCache T) (v : T)
    (h : c.data = some v) : c.get = (c, ⟨some v⟩, 0) := by
  simp [AtomicCache.get, h]

theorem AtomicCache.get_of_empty_atomic {T : Type} (c : AtomicCache T) (h : c.data = none) :
    c.get = (⟨c.calcFn, some (c.calcFn ())⟩, ⟨some (c.calcFn ())⟩, 1) := by
  simp [AtomicCache.get, h]

theorem Cache.iterGet_of_populated {T : Type} (c : Cache T) (v : T) (h : c.data = some v) :
    ∀ n : Nat, c.iterGet n = (c, List.replicate n ⟨some v⟩, 0) := by
  intro n
  induction n with
  | zero => simp [Cache.iterGet]
  | succ m ih =>
    simp [Cache.iterGet, Cache.get_of_populated c v h, ih, List.replicate_succ]

theorem AtomicCache.iterGet_of_populated_atomic {T : Type} (c : AtomicCache T) (v : T)
    (h : c.data = some v) :
    ∀ n : Nat, c.iterGet n = (c, List.replicate n ⟨some v⟩, 0) := by
  intro n
  induction n with
  | zero => simp [AtomicCache.iterGet]
  | succ m ih =>
    simp [AtomicCache.iterGet, AtomicCache.get_of_populated_atomic c v h, ih, List.replicate_succ]

/-!
Lock-event trace of `AtomicCache::get` (temporal model for the concurrency
protocol). One event per lock operation, computation call or store performed
by the body of `get`, in program order. In Rust, the guard temporary of the
condition `self.data.read().unwrap().is_none()` is dropped at the end of the
condition, before the then-block runs, so `let data = calc();` executes with
no lock held, and only the subsequent `*self.data.write().unwrap() = Some(data)`
holds the write lock. The final `readLock` (for the returned guard) is still
held when `get` returns.
-/

/-- The observable events of `AtomicCache::get`. -/
inductive LockEvent where
  | readLock
  | readUnlock
  | compute
  | writeLock
  | store
  | writeUnlock
deriving DecidableEq

/-- The sequence of lock/compute/store events `AtomicCache::get` performs,
in program order, as a function of the slot state at entry. -/
def AtomicCache.getTrace {T : Type} (c : AtomicCache T) : List LockEvent :=
  if c.data.isNone then
    [.readLock, .readUnlock, .compute, .writeLock, .store, .writeUnlock, .readLock]
  else
    [.readLock, .readUnlock, .readLock]

/-- Whether the write lock is held just after the first `i` events of `tr`
(more acquisitions than releases so far). -/
def writeHeldAfter (tr : List LockEvent) (i : Nat) : Bool :=
  (tr.take i).count LockEvent.writeUnlock < (tr.take i).count LockEvent.writeLock

/-- Whether a read lock is held just after the first `i` events of `tr`. -/
def readHeldAfter (tr : List LockEvent) (i : Nat) : Bool :=
  (tr.take i).count LockEvent.readUnlock < (tr.take i).count LockEvent.readLock

/-- Whether every `compute` event of `tr` happens while the write lock is
held (the write lock is held just after the events preceding it). -/
def computeUnderWriteLock (tr : List LockEvent) : Bool :=
  (List.range tr.length).all fun i =>
    if tr.get? i = some LockEvent.compute then writeHeldAfter tr i else true

/-!
Poison model of `AtomicCache::get` (error handling). `RwLock` acquisitions
return `Result`; the source calls `.unwrap()` on every one (the initial
`read()`, the `write()`, the final `read()`), so a poisoned result panics.
A panic is modelled as `none`: the call produces no value and there is no
catch, retry or recovery branch in the body.
-/

/-- `lock().unwrap()`: yields the guarded value, or `none` (panic) when the
lock is poisoned. -/
def lockAcquire {A : Type} (poisoned : Bool) (a : A) : Option A :=
  if poisoned then none else some a

/-- `AtomicCache::get` with the lock's poison flag made explicit: every
acquisition goes through `lockAcquire` and its `unwrap` panic propagates.
Returns `some (cache after the call, returned view)` on the normal path. -/
def AtomicCache.getChecked {T : Type} (poisoned : Bool) (c : AtomicCache T) :
    Option (AtomicCache T × AtomicCacheRef T) :=
  match lockAcquire poisoned c.data with
  | none => none
  | some d =>
    if d.isNone then
      let data := c.calcFn ()
      match lockAcquire poisoned () with
      | none => none
      | some _ =>
        let c' : AtomicCache T := ⟨c.calcFn, some data⟩
        match lockAcquire poisoned c'.data with
        | none => none
        | some d2 => some (c', ⟨d2⟩)
    else
      match lockAcquire poisoned c.data with
      | none => none
      | some d2 => some (c, ⟨d2⟩)

/-!
Borrow-count model of `Cache::get` (RefCell dynamic borrow checking).
`outstanding` counts the `CacheRef` views the caller still holds when it
calls `get`. The shared borrow taken for the `is_none` check is a temporary,
dropped before the then-block, so it is not outstanding at the `replace`.
`RefCell::replace` needs an exclusive borrow: it panics (`none`) when any
shared borrow is outstanding. The final `borrow()` is shared and coexists
with any outstanding shared borrows.
-/

/-- `Cache::get` with the `RefCell` borrow count made explicit. `none` models
a `BorrowMutError` panic inside `self.data.replace(..)`. -/
def Cache.getB {T : Type} (c : Cache T) (outstanding : Nat) :
    Option (Cache T × CacheRef T) :=
  if c.data.isNone then
    if outstanding = 0 then
      let data := c.calcFn ()
      let c' : Cache T := ⟨c.calcFn, some data⟩
      some (c', ⟨c'.data⟩)
    else none
  else
    some (c, ⟨c.data⟩)

/-- The states `(cache, number of live views)` reachable by sequential use of
a `Cache`: start from `new` with no views, call `get` (keeping the new view),
or drop a view. -/
inductive Cache.Reach {T : Type} : Cache T → Nat → Prop where
  | init (f : Unit → T) : Cache.Reach (Cache.new f) 0
  | step (c : Cache T) (n : Nat) (c' : Cache T) (r : CacheRef T) :
      Cache.Reach c n → c.getB n = some (c', r) → Cache.Reach c' (n + 1)
  | drop (c : Cache T) (n : Nat) : Cache.Reach c (n + 1) → Cache.Reach c n

theorem Cache.Reach.data_isSome_of_pos {T : Type} (c : Cache T) (n : Nat)
    (h : Cache.Reach c n) : n = 0 ∨ c.data.isSome = true := by
  induction h with
  | init f => exact Or.inl rfl
  | step c m c' r _ hget _ =>
    refine Or.inr ?_
    unfold Cache.getB at hget
    by_cases hd : c.data.isNone
    · simp [hd] at hget
      rcases hget with ⟨h0, hc, hr⟩
      rw [← hc]
      rfl
    · simp [hd] at hget
      rcases hget with ⟨hc, hr⟩
      rw [← hc]
      simpa [Option.isNone_iff_eq_none, ← Option.ne_none_iff_isSome] using hd
  | drop c m _ ih =>
    rcases ih with h0 | hs
    · exact absurd h0 (Nat.succ_ne_zero m)
    · exact Or.inr hs

/-!
Two-thread interleaving model of `AtomicCache::get` (first-access race).
Each thread runs the body of `get` as three atomic regions, matching the
critical sections of the source:
- pc 0: the read-locked emptiness check (`self.data.read().unwrap().is_none()`);
  if the slot is empty proceed to compute (pc 1), else skip to done (pc 3);
- pc 1: `let data = calc();` with no lock held — sets the thread's local
  register and counts one invocation;
- pc 2: the write-locked store `*self.data.write().unwrap() = Some(data)` —
  writes the register to the shared slot;
- pc 3: done (the final read returns a view of the slot).
A schedule is a list of thread choices (`false` = thread 1, `true` = thread 2).
-/

/-- Result of one atomic step of one thread. -/
structure StepResult (T : Type) where
  slot : Option T
  pc : Nat
  reg : Option T
  didInvoke : Bool
  didStore : Bool

/-- One atomic step of a single thread running `AtomicCache::get`, given the
shared slot and the thread's program counter and register. When the thread
reaches pc 2 its register is `some data` from the pc 1 step, and the store
writes it to the slot. -/
def threadStep {T : Type} (f : Unit → T) (slot : Option T) (pc : Nat) (reg : Option T) :
    StepResult T :=
  match pc with
  | 0 => ⟨slot, if slot.isNone then 1 else 3, reg, false, false⟩
  | 1 => ⟨slot, 2, some (f ()), true, false⟩
  | 2 => ⟨reg, 3, reg, false, true⟩
  | _ => ⟨slot, pc, reg, false, false⟩

/-- Shared state of two threads racing on one `AtomicCache`. -/
structure RaceState (T : Type) where
  slot : Option T
  pc1 : Nat
  pc2 : Nat
  reg1 : Option T
  reg2 : Option T
  invocations : Nat
  stores : Nat

/-- Initial state: fresh cache (empty slot), both threads at the start of
`get`, no invocations yet. -/
def RaceState.start {T : Type} : RaceState T :=
  ⟨none, 0, 0, none, none, 0, 0⟩

/-- Run one step of the chosen thread (`false` = thread 1, `true` = thread 2). -/
def raceStep {T : Type} (f : Unit → T) (t : Bool) (s : RaceState T) : RaceState T :=
  if t then
    let r := threadStep f s.slot s.pc2 s.reg2
    ⟨r.slot, s.pc1, r.pc, s.reg1, r.reg,
      s.invocations + (if r.didInvoke then 1 else 0),
      s.stores + (if r.didStore then 1 else 0)⟩
  else
    let r := threadStep f s.slot s.pc1 s.reg1
    ⟨r.slot, r.pc, s.pc2, r.reg, s.reg2,
      s.invocations + (if r.didInvoke then 1 else 0),
      s.stores + (if r.didStore then 1 else 0)⟩

/-- Run a whole schedule. -/
def raceRun {T : Type} (f : Unit → T) (sched : List Bool) (s : RaceState T) : RaceState T :=
  sched.foldl (fun st t => raceStep f t st) s

/- Further helper lemmas. -/

theorem Cache.iterGet_of_empty {T : Type} (c : Cache T) (h : c.data = none) (n : Nat) :
    c.iterGet n = (if n = 0 then c else ⟨c.calcFn, some (c.calcFn ())⟩,
      List.replicate n ⟨some (c.calcFn ())⟩, if n = 0 then 0 else 1) := by
  cases n with
  | zero => simp [Cache.iterGet]
  | succ m =>
    simp [Cache.iterGet, Cache.get_of_empty c h,
      Cache.iterGet_of_populated ⟨c.calcFn, some (c.calcFn ())⟩ (c.calcFn ()) rfl m,
      List.replicate_succ]

theorem AtomicCache.iterGet_of_empty_atomic {T : Type} (c : AtomicCache T) (h : c.data = none)
    (n : Nat) :
    c.iterGet n = (if n = 0 then c else ⟨c.calcFn, some (c.calcFn ())⟩,
      List.replicate n ⟨some (c.calcFn ())⟩, if n = 0 then 0 else 1) := by
  cases n with
  | zero => simp [AtomicCache.iterGet]
  | succ m =>
    simp [AtomicCache.iterGet, AtomicCache.get_of_empty_atomic c h,
      AtomicCache.iterGet_of_populated_atomic ⟨c.calcFn, some (c.calcFn ())⟩ (c.calcFn ()) rfl m,
      List.replicate_succ]

theorem Cache.get_fst_data {T : Type} (c : Cache T) : (c.get).1.data = some c.value := by
  cases hd : c.data with
  | none => simp [Cache.get_of_empty c hd, Cache.value, hd]
  | some v => simp [Cache.get_of_populated c v hd, Cache.value, hd]

theorem Cache.get_view {T : Type} (c : Cache T) : (c.get).2.1 = ⟨some c.value⟩ := by
  cases hd : c.data with
  | none => simp [Cache.get_of_empty c hd, Cache.value, hd]
  | some v => simp [Cache.get_of_populated c v hd, Cache.value, hd]

theorem AtomicCache.get_fst_data_atomic {T : Type} (c : AtomicCache T) :
    (c.get).1.data = some c.value := by
  cases hd : c.data with
  | none => simp [AtomicCache.get_of_empty_atomic c hd, AtomicCache.value, hd]
  | some v => simp [AtomicCache.get_of_populated_atomic c v hd, AtomicCache.value, hd]

theorem AtomicCache.get_view_atomic {T : Type} (c : AtomicCache T) :
    (c.get).2.1 = ⟨some c.value⟩ := by
  cases hd : c.data with
  | none => simp [AtomicCache.get_of_empty_atomic c hd, AtomicCache.value, hd]
  | some v => simp [AtomicCache.get_of_populated_atomic c v hd, AtomicCache.value, hd]

/- Claim theorems. -/

/-- C1: for every computation `f` and every `n ≥ 1` sequential calls of `get`
on a cache built with `new f` (either `Cache` or `AtomicCache`), the first
call on the empty slot invokes `f` once, stores the result as populated and
returns a view of it; every one of the `n` calls returns a view of the result
of `f`'s (single) invocation, and the total number of invocations of `f`
across all `n` calls is exactly 1. -/
theorem C1_sequential_compute_once (T : Type) (f : Unit → T) (n : Nat) (h : 1 ≤ n) :
    (Cache.new f).get = (⟨f, some (f ())⟩, ⟨some (f ())⟩, 1) ∧
    ((Cache.new f).iterGet n).2.2 = 1 ∧
    ((Cache.new f).iterGet n).2.1 = List.replicate n ⟨some (f ())⟩ ∧
    (AtomicCache.new f).get = (⟨f, some (f ())⟩, ⟨some (f ())⟩, 1) ∧
    ((AtomicCache.new f).iterGet n).2.2 = 1 ∧
    ((AtomicCache.new f).iterGet n).2.1 = List.replicate n ⟨some (f ())⟩ := by
  have hn : n ≠ 0 := by omega
  refine ⟨Cache.get_of_empty (Cache.new f) rfl, ?_, ?_,
    AtomicCache.get_of_empty_atomic (AtomicCache.new f) rfl, ?_, ?_⟩
  · rw [Cache.iterGet_of_empty (Cache.new f) rfl n]; simp [hn]
  · rw [Cache.iterGet_of_empty (Cache.new f) rfl n]; simp [hn, Cache.new]
  · rw [AtomicCache.iterGet_of_empty_atomic (AtomicCache.new f) rfl n]; simp [hn]
  · rw [AtomicCache.iterGet_of_empty_atomic (AtomicCache.new f) rfl n]; simp [hn, AtomicCache.new]

/-- C1 witness: concrete instance at `f = fun _ => 55`, `n = 3`. -/
theorem C1_sequential_compute_once_witness :
    ((Cache.new (fun _ => (55 : Nat))).iterGet 3).2.2 = 1 ∧
    ((Cache.new (fun _ => (55 : Nat))).iterGet 3).2.1 = List.replicate 3 ⟨some 55⟩ ∧
    ((AtomicCache.new (fun _ => (55 : Nat))).iterGet 3).2.2 = 1 ∧
    ((AtomicCache.new (fun _ => (55 : Nat))).iterGet 3).2.1 = List.replicate 3 ⟨some 55⟩ := by
  have h := C1_sequential_compute_once Nat (fun _ => 55) 3 (by omega)
  exact ⟨h.2.1, h.2.2.1, h.2.2.2.2.1, h.2.2.2.2.2⟩

/-- C3: once the slot of a `Cache` or `AtomicCache` is `populated(v)`, any
number of further sequential `get` calls leaves the cache (hence the slot
and its value) unchanged: it never reverts to empty and the value never
changes. -/
theorem C3_populated_slot_stable (T : Type) (c : Cache T) (a : AtomicCache T) (v w : T)
    (n : Nat) (hc : c.data = some v) (ha : a.data = some w) :
    (c.iterGet n).1 = c ∧ (c.iterGet n).1.data = some v ∧
    (a.iterGet n).1 = a ∧ (a.iterGet n).1.data = some w := by
  simp [Cache.iterGet_of_populated c v hc n, AtomicCache.iterGet_of_populated_atomic a w ha n,
    hc, ha]

/-- C3 witness: concrete populated caches, 5 further calls. -/
theorem C3_populated_slot_stable_witness :
    ((Cache.mk (fun _ => (1 : Nat)) (some 2)).iterGet 5).1.data = some 2 ∧
    ((AtomicCache.mk (fun _ => (1 : Nat)) (some 3)).iterGet 5).1.data = some 3 := by
  have h := C3_populated_slot_stable Nat (Cache.mk (fun _ => 1) (some 2))
    (AtomicCache.mk (fun _ => 1) (some 3)) 2 3 5 rfl rfl
  exact ⟨h.2.1, h.2.2.2⟩

/-- C4: `new f` (both variants) constructs a cache whose slot is empty and
whose stored computation is exactly `f`; the body of `new` contains no
invocation of `f`, and `get` invokes the computation (count 1) precisely
when it finds the slot empty, never otherwise (count 0). -/
theorem C4_new_empty_no_invocation (T : Type) (f : Unit → T) (c : Cache T)
    (a : AtomicCache T) :
    (Cache.new f).data = none ∧ (Cache.new f).calcFn = f ∧
    (AtomicCache.new f).data = none ∧ (AtomicCache.new f).calcFn = f ∧
    (c.get).2.2 = (if c.data.isNone then 1 else 0) ∧
    (a.get).2.2 = (if a.data.isNone then 1 else 0) := by
  refine ⟨rfl, rfl, rfl, rfl, ?_, ?_⟩
  · by_cases hd : c.data.isNone <;> simp [Cache.get, hd]
  · by_cases hd : a.data.isNone <;> simp [AtomicCache.get, hd]

/-- C5: on a populated slot, `get` (both variants) returns a view of the
existing stored value, invokes the computation zero times, and leaves the
whole cache — slot contents and stored computation — unchanged. -/
theorem C5_populated_get_frame (T : Type) (c : Cache T) (a : AtomicCache T) (v w : T)
    (hc : c.data = some v) (ha : a.data = some w) :
    c.get = (c, ⟨some v⟩, 0) ∧ a.get = (a, ⟨some w⟩, 0) :=
  ⟨Cache.get_of_populated c v hc, AtomicCache.get_of_populated_atomic a w ha⟩

/-- C5 witness: concrete populated caches. -/
theorem C5_populated_get_frame_witness :
    (Cache.mk (fun _ => (7 : Nat)) (some 9)).get =
      (Cache.mk (fun _ => (7 : Nat)) (some 9), ⟨some 9⟩, 0) ∧
    (AtomicCache.mk (fun _ => (7 : Nat)) (some 8)).get =
      (AtomicCache.mk (fun _ => (7 : Nat)) (some 8), ⟨some 8⟩, 0) :=
  C5_populated_get_frame Nat (Cache.mk (fun _ => 7) (some 9))
    (AtomicCache.mk (fun _ => 7) (some 8)) 9 8 rfl rfl

/-- C6: for any cache (both variants) under sequential access, two
consecutive `get` calls return equal views, and every view returned across
any number `n` of sequential calls is the same (`replicate`): every
successful access observes the same value. -/
theorem C6_value_stability (T : Type) (c : Cache T) (a : AtomicCache T) (n : Nat) :
    ((c.get).1.get).2.1 = (c.get).2.1 ∧
    ((a.get).1.get).2.1 = (a.get).2.1 ∧
    (c.iterGet n).2.1 = List.replicate n ⟨some c.value⟩ ∧
    (a.iterGet n).2.1 = List.replicate n ⟨some a.value⟩ := by
  refine ⟨?_, ?_, ?_, ?_⟩
  · rw [Cache.get_view ((c.get).1), Cache.get_view c]
    rw [show (c.get).1.value = c.value by
      simp [Cache.value, Cache.get_fst_data c]]
  · rw [AtomicCache.get_view_atomic ((a.get).1), AtomicCache.get_view_atomic a]
    rw [show (a.get).1.value = a.value by
      simp [AtomicCache.value, AtomicCache.get_fst_data_atomic a]]
  · cases hd : c.data with
    | none => simp [Cache.iterGet_of_empty c hd n, Cache.value, hd]
    | some v => simp [Cache.iterGet_of_populated c v hd n, Cache.value, hd]
  · cases hd : a.data with
    | none => simp [AtomicCache.iterGet_of_empty_atomic a hd n, AtomicCache.value, hd]
    | some v => simp [AtomicCache.iterGet_of_populated_atomic a v hd n, AtomicCache.value, hd]

/-- C9: every view returned by `get` (both variants) wraps a populated slot,
so the `unwrap` inside `Deref::deref` never panics on a view `get` returned. -/
theorem C9_deref_never_panics (T : Type) (c : Cache T) (a : AtomicCache T) :
    ((c.get).2.1.deref).isSome = true ∧ ((a.get).2.1.deref).isSome = true := by
  rw [Cache.get_view c, AtomicCache.get_view_atomic a]
  exact ⟨rfl, rfl⟩

/-- C2 counterexample: on a fresh `AtomicCache` (empty slot), the `compute`
event is the third event of `AtomicCache::get`, before `writeLock`; the
write lock is not held when `compute` happens, refuting the claim that
`compute` is invoked while the write lock is held. -/
theorem C2_compute_outside_write_lock :
    ((AtomicCache.new (fun _ => (55 : Nat))).getTrace).get? 2 = some LockEvent.compute ∧
    writeHeldAfter ((AtomicCache.new (fun _ => (55 : Nat))).getTrace) 2 = false ∧
    computeUnderWriteLock ((AtomicCache.new (fun _ => (55 : Nat))).getTrace) = false := by
  refine ⟨rfl, rfl, rfl⟩

/-- C2 amended: when `AtomicCache::get` finds the slot empty, the events
occur in this order: acquire and release the read lock, invoke `compute`
with NO lock held (neither read nor write), then acquire the write lock,
store the result while the write lock is held, release the write lock, and
re-acquire a read lock before returning the view. (The original claim's only
error: `compute` runs before the write lock is acquired, not under it.) -/
theorem C2_amended_lock_order (T : Type) (c : AtomicCache T) (h : c.data = none) :
    c.getTrace = [LockEvent.readLock, LockEvent.readUnlock, LockEvent.compute,
      LockEvent.writeLock, LockEvent.store, LockEvent.writeUnlock, LockEvent.readLock] ∧
    c.getTrace.get? 2 = some LockEvent.compute ∧
    c.getTrace.get? 4 = some LockEvent.store ∧
    readHeldAfter c.getTrace 2 = false ∧
    writeHeldAfter c.getTrace 2 = false ∧
    writeHeldAfter c.getTrace 4 = true := by
  have ht : c.getTrace = [LockEvent.readLock, LockEvent.readUnlock, LockEvent.compute,
      LockEvent.writeLock, LockEvent.store, LockEvent.writeUnlock, LockEvent.readLock] := by
    simp [AtomicCache.getTrace, h]
  refine ⟨ht, ?_, ?_, ?_, ?_, ?_⟩ <;> rw [ht] <;> rfl

/-- C2 amended witness: concrete empty cache. -/
theorem C2_amended_lock_order_witness :
    writeHeldAfter ((AtomicCache.new (fun _ => (0 : Nat))).getTrace) 4 = true ∧
    readHeldAfter ((AtomicCache.new (fun _ => (0 : Nat))).getTrace) 2 = false := by
  have h := C2_amended_lock_order Nat (AtomicCache.new (fun _ => 0)) rfl
  exact ⟨h.2.2.2.2.2, h.2.2.2.1⟩

/-- C7: `AtomicCache::get` has no recoverable error path: with the lock
poisoned, every acquisition's `unwrap` panics, so the call produces no value
and performs no recovery (`getChecked` is `none`); with the lock healthy the
call agrees with the plain semantics of `get`. -/
theorem C7_poison_fatal (T : Type) (c : AtomicCache T) (b : Bool) (h : b = true) :
    AtomicCache.getChecked b c = none ∧
    AtomicCache.getChecked false c = some ((c.get).1, (c.get).2.1) := by
  subst h
  constructor
  · simp [AtomicCache.getChecked, lockAcquire]
  · by_cases hd : c.data.isNone <;>
      simp [AtomicCache.getChecked, lockAcquire, AtomicCache.get, hd]

/-- C7 witness: concrete cache, poisoned flag set. -/
theorem C7_poison_fatal_witness :
    AtomicCache.getChecked true (AtomicCache.new (fun _ => (55 : Nat))) = none :=
  (C7_poison_fatal Nat (AtomicCache.new (fun _ => 55)) true rfl).1

/-- C8: under concurrent first access, at-most-once invocation is NOT
guaranteed: in the interleaving where both threads pass the read-locked
emptiness check before either stores, each thread invokes `compute` and each
stores to the slot (2 invocations, 2 stores), while a sequential schedule
(thread 1 completes `get` before thread 2 starts) yields exactly 1
invocation; the final slot is a valid result of the computation either way. -/
theorem C8_race_double_invocation (T : Type) (f : Unit → T) :
    (raceRun f [false, true, false, false, true, true] RaceState.start).invocations = 2 ∧
    (raceRun f [false, true, false, false, true, true] RaceState.start).stores = 2 ∧
    (raceRun f [false, true, false, false, true, true] RaceState.start).slot = some (f ()) ∧
    (raceRun f [false, false, false, true] RaceState.start).invocations = 1 ∧
    (raceRun f [false, false, false, true] RaceState.start).slot = some (f ()) := by
  refine ⟨rfl, rfl, rfl, rfl, rfl⟩

/-- C10: `Cache::get` never hits a `RefCell` borrow panic in any state
reachable by sequential use (construct, call `get`, hold or drop views): the
mutating `replace` only runs when the slot is empty, and no view can be
outstanding while the slot is empty. -/
theorem C10_no_borrow_panic (T : Type) (c : Cache T) (n : Nat) (h : Cache.Reach c n) :
    (c.getB n).isSome = true := by
  rcases Cache.Reach.data_isSome_of_pos c n h with h0 | hs
  · subst h0
    by_cases hd : c.data.isNone <;> simp [Cache.getB, hd]
  · obtain ⟨v, hv⟩ := Option.isSome_iff_exists.mp hs
    simp [Cache.getB, hv]

/-- C10 witness: a fresh cache with no outstanding views. -/
theorem C10_no_borrow_panic_witness :
    ((Cache.new (fun _ => (55 : Nat))).getB 0).isSome = true :=
  C10_no_borrow_panic Nat (Cache.new (fun _ => 55)) 0 (Cache.Reach.init (fun _ => 55))

end Spec2Proof
